import Mathlib

/-!
Verification of the SecureVault crypto-orchestration core.

The development shallowly embeds the repository's crypto service
(src/unnamed/part_003) and the vault orchestration logic
(src/contexts/VaultContext.tsx).  Strings and binary buffers are both
represented as lists of natural numbers below 256 (byte lists); base64 is
modelled concretely; the external WebCrypto AES-GCM primitive is modelled as
an executable ideal AEAD cipher satisfying the contract of spec section 4.3.
-/

namespace SecureVault

/-- Byte strings: lists of naturals, wellformed when every entry is below 256. -/
abbrev Bytes := List Nat

/-- Wellformedness of a byte list: every entry fits in one octet. -/
def isBytes (l : Bytes) : Prop := ∀ b ∈ l, b < 256

instance : DecidablePred isBytes := fun l =>
  inferInstanceAs (Decidable (∀ b ∈ l, b < 256))

/-! Constants from src/unnamed/part_001 (constants.ts). -/

/-- PBKDF2 iteration count, from constants.ts. -/
def PBKDF2_ITERATIONS : Nat := 100000

/-- Salt length in bytes, from constants.ts. -/
def SALT_LENGTH : Nat := 16

/-- IV length in bytes (AES-GCM standard), from constants.ts. -/
def IV_LENGTH : Nat := 12

/-- Key length in bits, from constants.ts. -/
def KEY_LENGTH : Nat := 256

/-! Randomness.  window.crypto.getRandomValues is modelled by an explicit
stream of random values: a function from draw index to value; each byte
drawn is reduced mod 256 as a Uint8Array entry is. -/

/-- A CSPRNG state: the stream of values the generator will produce. -/
def Rng := Nat → Nat

/-- Draw `n` bytes from the random stream (models getRandomValues on a
Uint8Array of length `n`). -/
def drawBytes (n : Nat) (rng : Rng) : Bytes :=
  (List.range n).map (fun i => rng i % 256)

/-- The random stream after `n` values have been consumed. -/
def rngNext (n : Nat) (rng : Rng) : Rng := fun i => rng (i + n)

/-! Base64, modelling window.btoa / window.atob as used by bufToBase64 and
base64ToBuf in src/unnamed/part_003 lines 8-26: the net effect of those two
helpers is the standard base64 encoding of a byte buffer and its partial
inverse (atob throws on malformed input, modelled by Option). -/

/-- The standard base64 alphabet: sextet value to ASCII character code. -/
def b64Char (v : Nat) : Nat :=
  if v < 26 then 65 + v
  else if v < 52 then 71 + v
  else if v < 62 then v - 4
  else if v = 62 then 43
  else 47

/-- Partial inverse of `b64Char`: ASCII code back to sextet value. -/
def b64CharInv (c : Nat) : Option Nat :=
  if 65 ≤ c ∧ c ≤ 90 then some (c - 65)
  else if 97 ≤ c ∧ c ≤ 122 then some (c - 71)
  else if 48 ≤ c ∧ c ≤ 57 then some (c + 4)
  else if c = 43 then some 62
  else if c = 47 then some 63
  else none

/-- Base64-encode a byte list (models bufToBase64, part_003 lines 8-16,
i.e. window.btoa on the binary string of the buffer).  Character code 61
is the padding character. -/
def b64Encode : Bytes → Bytes
  | [] => []
  | [a] => [b64Char (a / 4), b64Char (a % 4 * 16), 61, 61]
  | [a, b] => [b64Char (a / 4), b64Char (a % 4 * 16 + b / 16), b64Char (b % 16 * 4), 61]
  | a :: b :: c :: rest =>
      b64Char (a / 4) :: b64Char (a % 4 * 16 + b / 16) ::
      b64Char (b % 16 * 4 + c / 64) :: b64Char (c % 64) :: b64Encode rest

/-- Base64-decode a character-code list (models base64ToBuf, part_003
lines 18-26, i.e. window.atob; malformed input yields none, as atob
throws). -/
def b64Decode : Bytes → Option Bytes
  | [] => some []
  | c1 :: c2 :: c3 :: c4 :: rest =>
      if rest = [] ∧ c3 = 61 ∧ c4 = 61 then
        match b64CharInv c1, b64CharInv c2 with
        | some s1, some s2 => if s2 % 16 = 0 then some [s1 * 4 + s2 / 16] else none
        | _, _ => none
      else if rest = [] ∧ c4 = 61 then
        match b64CharInv c1, b64CharInv c2, b64CharInv c3 with
        | some s1, some s2, some s3 =>
            if s3 % 4 = 0 then some [s1 * 4 + s2 / 16, s2 % 16 * 16 + s3 / 4] else none
        | _, _, _ => none
      else
        match b64CharInv c1, b64CharInv c2, b64CharInv c3, b64CharInv c4, b64Decode rest with
        | some s1, some s2, some s3, some s4, some tail =>
            some ((s1 * 4 + s2 / 16) :: (s2 % 16 * 16 + s3 / 4) :: (s3 % 4 * 64 + s4) :: tail)
        | _, _, _, _, _ => none
  | _ => none

/-! The AEAD cipher.  Modelled from the spec: window.crypto.subtle AES-GCM
(an external platform primitive, spec sections 4.3 and 6: a 256-bit-key AEAD
with a 128-bit tag).  The model is an executable stream cipher with an
appended 16-byte tag; it satisfies the contract the spec states for the
primitive: round-trip correctness, failure (none) on tag mismatch, and — as
AES-GCM with 96-bit IVs does — distinct ciphertexts for distinct IVs under a
fixed key and plaintext. -/

/-- Keystream byte `i` for the model cipher, always below 256. -/
def ksByte (key iv : Bytes) (i : Nat) : Nat :=
  (key.getD (i % 32) 0 + 2 * iv.getD (i % 12) 0 + 3 * i) % 256

/-- XOR a byte list against the keystream starting at position `i`
(self-inverse, like the CTR layer of GCM). -/
def streamEnc (key iv : Bytes) : Nat → Bytes → Bytes
  | _, [] => []
  | i, b :: rest => (b ^^^ ksByte key iv i) :: streamEnc key iv (i + 1) rest

/-- A 12-byte pad derived from the key, used inside the tag. -/
def keyPad (key : Bytes) : Bytes :=
  (List.range 12).map (fun i => key.getD i 0 % 256)

/-- One-byte checksum of a byte list. -/
def chkSum (p : Bytes) : Nat := p.foldl (fun a b => (a + b) % 256) 0

/-- The 16-byte authentication tag of the model cipher: the IV masked by a
key pad, followed by checksums of the plaintext, IV and key. -/
def tagOf (key iv p : Bytes) : Bytes :=
  List.zipWith (fun a b => a ^^^ b) iv (keyPad key) ++
  [p.length % 256, chkSum p, chkSum iv, chkSum key]

/-- Authenticated encryption of the model cipher: ciphertext body followed
by the 16-byte tag (models crypto.subtle.encrypt for AES-GCM). -/
def aeadEncrypt (key iv p : Bytes) : Bytes :=
  streamEnc key iv 0 p ++ tagOf key iv p

/-- Authenticated decryption of the model cipher; none models a thrown
OperationError on tag mismatch (crypto.subtle.decrypt for AES-GCM). -/
def aeadDecrypt (key iv ct : Bytes) : Option Bytes :=
  if ct.length < 16 then none
  else
    let body := ct.take (ct.length - 16)
    let tag := ct.drop (ct.length - 16)
    let p := streamEnc key iv 0 body
    if tagOf key iv p = tag then some p else none

/-! Small string-processing helpers for the JSON-shaped values the service
produces (strings carry no characters needing JSON escapes here: base64
text never contains a quote or backslash). -/

/-- Strip an expected leading byte sequence; none when the input does not
start with it. -/
def dropLead : Bytes → Bytes → Option Bytes
  | [], s => some s
  | _ :: _, [] => none
  | p :: ps, c :: cs => if c = p then dropLead ps cs else none

/-- Split a byte list at the first double-quote character (code 34):
returns the part before it and the part after it. -/
def splitAtQuote : Bytes → Option (Bytes × Bytes)
  | [] => none
  | c :: rest =>
      if c = 34 then some ([], rest)
      else (splitAtQuote rest).map (fun p => (c :: p.1, p.2))

/-- ASCII bytes of the fixed verifier plaintext "VALID_USER_KEY"
(part_003 line 63). -/
def VALID_USER_KEY : Bytes := [86, 65, 76, 73, 68, 95, 85, 83, 69, 82, 95, 75, 69, 89]

/-- Serialize the verifier object (part_003 lines 71-74): the byte text of
the JSON object with keys iv and data holding the two base64 strings, in
that order, exactly as JSON.stringify produces it. -/
def stringifyVerifier (ivB dataB : Bytes) : Bytes :=
  [123, 34, 105, 118, 34, 58, 34] ++ ivB ++
  [34, 44, 34, 100, 97, 116, 97, 34, 58, 34] ++ dataB ++ [34, 125]

/-- Parse a verifier string into its iv and data fields (models JSON.parse
at part_003 line 79 on the verifier's object shape; any other input yields
none, modelling the thrown SyntaxError). -/
def parseVerifier (s : Bytes) : Option (Bytes × Bytes) :=
  match dropLead [123, 34, 105, 118, 34, 58, 34] s with
  | none => none
  | some s1 =>
    match splitAtQuote s1 with
    | none => none
    | some (ivB, s2) =>
      match dropLead [44, 34, 100, 97, 116, 97, 34, 58, 34] s2 with
      | none => none
      | some s3 =>
        match splitAtQuote s3 with
        | none => none
        | some (dataB, s4) => if s4 = [125] then some (ivB, dataB) else none

/-! The crypto service, src/unnamed/part_003. -/

/-- Result record of encryptData (part_003 line 91): the raw ciphertext
buffer and the base64-encoded IV. -/
structure EncOut where
  encryptedBuffer : Bytes
  iv : Bytes
deriving DecidableEq, Repr

/-- Model of encryptData (part_003 lines 91-99): draw a fresh IV_LENGTH-byte IV from
the CSPRNG, AEAD-encrypt the data under the key with it, and return the
ciphertext together with exactly that IV, base64-encoded; the advanced
random stream is returned alongside. -/
def encryptData (data : Bytes) (key : Bytes) (rng : Rng) : EncOut × Rng :=
  let ivb := drawBytes IV_LENGTH rng
  (⟨aeadEncrypt key ivb data, b64Encode ivb⟩, rngNext IV_LENGTH rng)

/-- Model of decryptData (part_003 lines 101-108): base64-decode the IV and
AEAD-decrypt; none models a thrown error (malformed base64 or tag
mismatch). -/
def decryptData (encryptedData : Bytes) (ivBase64 : Bytes) (key : Bytes) : Option Bytes :=
  match b64Decode ivBase64 with
  | none => none
  | some iv => aeadDecrypt key iv encryptedData

/-- Model of generateVerifier (part_003 lines 58-75): draw a fresh IV, AEAD-encrypt
the constant VALID_USER_KEY under the key, and serialize the iv and
ciphertext, both base64, as a JSON object string. -/
def generateVerifier (key : Bytes) (rng : Rng) : Bytes × Rng :=
  let iv := drawBytes IV_LENGTH rng
  let encrypted := aeadEncrypt key iv VALID_USER_KEY
  (stringifyVerifier (b64Encode iv) (b64Encode encrypted), rngNext IV_LENGTH rng)

/-- Model of verifyKey (part_003 lines 77-89): parse the verifier string, base64
decode both fields, AEAD-decrypt, and compare to the constant; the
enclosing try/catch turns every failure of any stage into false, so the
function is total into Bool. -/
def verifyKey (key : Bytes) (verifierStr : Bytes) : Bool :=
  match parseVerifier verifierStr with
  | none => false
  | some (ivB, dataB) =>
    match b64Decode ivB, b64Decode dataB with
    | some iv, some data =>
      match aeadDecrypt key iv data with
      | some pt => decide (pt = VALID_USER_KEY)
      | none => false
    | _, _ => false

/-! Metadata codec (part_003 lines 110-121).  JSON.stringify of the
metadata object {name, type, size} is modelled on names free of characters
needing JSON escapes, the shape the vault itself writes. -/

/-- ASCII decimal digits of a natural number. -/
def natDigits (n : Nat) : Bytes := (Nat.toDigits 10 n).map Char.toNat

/-- Inverse of natDigits on digit strings. -/
def digitsToNat (l : Bytes) : Nat := l.foldl (fun a c => a * 10 + (c - 48)) 0

/-- Serialize the metadata object (part_003 line 111): JSON text with keys
name, type, size in that order. -/
def stringifyMeta (name ftype : Bytes) (size : Nat) : Bytes :=
  [123, 34, 110, 97, 109, 101, 34, 58, 34] ++ name ++
  [34, 44, 34, 116, 121, 112, 101, 34, 58, 34] ++ ftype ++
  [34, 44, 34, 115, 105, 122, 101, 34, 58] ++ natDigits size ++ [125]

/-- Decoded metadata record. -/
structure Meta where
  name : Bytes
  ftype : Bytes
  size : Nat
deriving DecidableEq, Repr

/-- Parse metadata JSON text (models JSON.parse at part_003 line 120 on the
canonical metadata shape written by stringifyMeta; other inputs yield
none). -/
def parseMeta (s : Bytes) : Option Meta :=
  match dropLead [123, 34, 110, 97, 109, 101, 34, 58, 34] s with
  | none => none
  | some s1 =>
    match splitAtQuote s1 with
    | none => none
    | some (nm, s2) =>
      match dropLead [44, 34, 116, 121, 112, 101, 34, 58, 34] s2 with
      | none => none
      | some s3 =>
        match splitAtQuote s3 with
        | none => none
        | some (ty, s4) =>
          match dropLead [44, 34, 115, 105, 122, 101, 34, 58] s4 with
          | none => none
          | some s5 =>
            let digits := s5.takeWhile (fun c => 48 ≤ c && c ≤ 57)
            let rest := s5.dropWhile (fun c => 48 ≤ c && c ≤ 57)
            if rest = [125] ∧ digits ≠ [] then some ⟨nm, ty, digitsToNat digits⟩ else none

/-- Model of encryptMetadata (part_003 lines 110-114): stringify, encrypt, and
base64-encode the ciphertext; returns (encryptedText, iv), both base64. -/
def encryptMetadata (name ftype : Bytes) (size : Nat) (key : Bytes) (rng : Rng) :
    (Bytes × Bytes) × Rng :=
  let out := encryptData (stringifyMeta name ftype size) key rng
  ((b64Encode out.1.encryptedBuffer, out.1.iv), out.2)

/-- Model of decryptMetadata (part_003 lines 116-121): base64-decode the ciphertext
text, decrypt with the base64 IV, and parse the JSON; none models any
thrown error along the way. -/
def decryptMetadata (encryptedText iv : Bytes) (key : Bytes) : Option Meta :=
  match b64Decode encryptedText with
  | none => none
  | some buffer =>
    match decryptData buffer iv key with
    | none => none
    | some decrypted => parseMeta decrypted

/-! The vault orchestration layer, src/contexts/VaultContext.tsx.  The two
storage backends (supabase.storage bucket and the files table) are explicit
state; calls to them are also recorded in an operation trace.  Toast UI
messages and browser-only effects (object URLs, DOM) are outside the
model. -/

/-- A decrypted, catalog-visible file entry (types.ts DecryptedFile). -/
structure DecryptedFile where
  id : Bytes
  name : Bytes
  ftype : Bytes
  size : Nat
  createdAt : Nat
deriving DecidableEq, Repr

/-- A row of the files table (the insert at VaultContext.tsx lines
333-343). -/
structure FileRow where
  id : Bytes
  owner_id : Bytes
  storage_path : Bytes
  encrypted_metadata : Bytes
  metadata_iv : Bytes
  data_iv : Bytes
  thumbnail_path : Option Bytes
  thumbnail_iv : Option Bytes
  created_at : Nat
deriving DecidableEq, Repr

/-- The authenticated vault user (types.ts User). -/
structure UserRec where
  id : Bytes
  username : Bytes
  salt : Bytes
  verifier : Bytes
deriving DecidableEq, Repr

/-- The two storage backends: the blob bucket (path to ciphertext bytes)
and the files catalog table. -/
structure Backend where
  blobs : List (Bytes × Bytes)
  filesTable : List FileRow
deriving DecidableEq, Repr

/-- The session state held by VaultProvider (VaultContext.tsx lines
22-25). -/
structure VaultState where
  user : Option UserRec
  masterKey : Option Bytes
  files : List DecryptedFile
  isLoading : Bool
deriving DecidableEq, Repr

/-- A recorded backend interaction. -/
inductive Op where
  | blobPut (path bytes : Bytes)
  | blobGet (path : Bytes)
  | blobRemove (paths : List Bytes)
  | catSelectAll (ownerId : Bytes)
  | catSelectOne (id : Bytes)
  | catInsert (row : FileRow)
  | catDelete (id : Bytes)
deriving DecidableEq, Repr

/-- Write a blob (supabase.storage.upload). -/
def putBlob (be : Backend) (path bytes : Bytes) : Backend :=
  { be with blobs := be.blobs ++ [(path, bytes)] }

/-- Read a blob (supabase.storage.download); none when absent. -/
def getBlob (be : Backend) (path : Bytes) : Option Bytes :=
  (be.blobs.find? (fun pb => pb.1 == path)).map (fun pb => pb.2)

/-- Remove every blob whose path is listed (supabase.storage.remove). -/
def removeBlobs (be : Backend) (paths : List Bytes) : Backend :=
  { be with blobs := be.blobs.filter (fun pb => !(paths.contains pb.1)) }

/-- Insert a catalog row (files-table insert). -/
def insertRow (be : Backend) (row : FileRow) : Backend :=
  { be with filesTable := be.filesTable ++ [row] }

/-- Look up a catalog row by id (files-table select single). -/
def findRow (be : Backend) (fid : Bytes) : Option FileRow :=
  be.filesTable.find? (fun r => r.id == fid)

/-- Delete a catalog row by id (files-table delete). -/
def deleteRow (be : Backend) (fid : Bytes) : Backend :=
  { be with filesTable := be.filesTable.filter (fun r => !(r.id == fid)) }

/-- Insert a row into a list sorted by descending created_at. -/
def insertDesc (r : FileRow) : List FileRow → List FileRow
  | [] => [r]
  | x :: xs => if r.created_at ≤ x.created_at then x :: insertDesc r xs else r :: x :: xs

/-- Sort rows by descending created_at (the order clause of the files
select at VaultContext.tsx line 245). -/
def sortDesc : List FileRow → List FileRow
  | [] => []
  | x :: xs => insertDesc x (sortDesc xs)

/-- The rows the catalog returns for loadFiles: the owner's rows, newest
first. -/
def selectFilesDesc (be : Backend) (uid : Bytes) : List FileRow :=
  sortDesc (be.filesTable.filter (fun r => r.owner_id == uid))

/-- Environment of injected external outcomes for an upload: which blob
writes the storage backend rejects, whether the catalog insert fails, the
canvas raster result for an image thumbnail, and the clock. -/
structure Env where
  blobPutFails : Bytes → Bool
  insertFails : Bool
  thumbBlob : Option Bytes
  now : Nat

/-- One file handed to uploadFile: its name, MIME type, reported size and
content bytes. -/
structure FileInput where
  name : Bytes
  ftype : Bytes
  size : Nat
  content : Bytes
deriving DecidableEq, Repr

/-- ASCII bytes of the image-slash MIME-type lead, compared by
leadMatch. -/
def imageSlash : Bytes := [105, 109, 97, 103, 101, 47]

/-- Does the second list start with the first one. -/
def leadMatch : Bytes → Bytes → Bool
  | [], _ => true
  | _ :: _, [] => false
  | a :: as, b :: bs => a == b && leadMatch as bs

/-- Model of generateThumbnail (VaultContext.tsx lines 280-298): non-image files
yield no thumbnail; for images the external canvas raster produces either
a plaintext thumbnail blob or null (img.onerror), both injected through
the environment. -/
def generateThumbnail (env : Env) (f : FileInput) : Option Bytes :=
  if leadMatch imageSlash f.ftype then env.thumbBlob else none

/-- Model of crypto.randomUUID as a 16-byte draw from the CSPRNG. -/
def randomUUID (rng : Rng) : Bytes × Rng := (drawBytes 16 rng, rngNext 16 rng)

/-- ASCII bytes of the vaults-slash lead of every blob path. -/
def vaultsSlash : Bytes := [118, 97, 117, 108, 116, 115, 47]

/-- ASCII bytes of the dot-enc blob suffix. -/
def dotEnc : Bytes := [46, 101, 110, 99]

/-- ASCII bytes of the dot-thumb blob suffix. -/
def dotThumb : Bytes := [46, 116, 104, 117, 109, 98]

/-- Body-ciphertext blob path (VaultContext.tsx line 325). -/
def encPathOf (uid uuid : Bytes) : Bytes := vaultsSlash ++ uid ++ [47] ++ uuid ++ dotEnc

/-- Thumbnail-ciphertext blob path (VaultContext.tsx line 316). -/
def thumbPathOf (uid uuid : Bytes) : Bytes := vaultsSlash ++ uid ++ [47] ++ uuid ++ dotThumb

/-- Does a path end in the dot-thumb suffix. -/
def isThumbPath (p : Bytes) : Bool := leadMatch dotThumb.reverse p.reverse

/-- Result of a modelled uploadFile run: final session state, final backend
state, trace of attempted backend operations, remaining random stream, and
whether the call returned normally (false models a propagated throw). -/
structure UploadResult where
  state : VaultState
  backend : Backend
  trace : List Op
  rng : Rng
  ok : Bool

/-- Model of the loadFiles (VaultContext.tsx lines 237-272) decryption loop (lines
251-264): records whose metadata fails to decrypt are skipped (the inner
try/catch), the rest are collected in order. -/
def loadLoop (key : Bytes) : List FileRow → List DecryptedFile
  | [] => []
  | ef :: rest =>
    match decryptMetadata ef.encrypted_metadata ef.metadata_iv key with
    | some m => ⟨ef.id, m.name, m.ftype, m.size, ef.created_at⟩ :: loadLoop key rest
    | none => loadLoop key rest

/-- Model of loadFiles (VaultContext.tsx lines 237-272): guarded on an unlocked
session, reads the owner's catalog rows newest-first and replaces the
session file list with the decryptable ones; isLoading ends false via the
finally block. -/
def loadFiles (st : VaultState) (be : Backend) : VaultState × List Op :=
  match st.user, st.masterKey with
  | some u, some key =>
      ({ st with files := loadLoop key (selectFilesDesc be u.id), isLoading := false },
       [Op.catSelectAll u.id])
  | _, _ => (st, [])

/-- Continuation of uploadFile after the thumbnail stage (VaultContext.tsx
lines 324-351): draw the file id, write the body ciphertext blob (throwing
on backend rejection), encrypt the metadata, insert the catalog row
(throwing on rejection), then refresh the file list. -/
def uploadRest (env : Env) (st : VaultState) (be : Backend) (f : FileInput) (u : UserRec)
    (key : Bytes) (encryptedBuffer dataIv : Bytes) (thumbnailPath thumbnailIv : Option Bytes)
    (ops : List Op) (rng : Rng) : UploadResult :=
  let u2 := randomUUID rng
  let fileId := u2.1
  let storagePath := encPathOf u.id fileId
  if env.blobPutFails storagePath then
    ⟨{ st with isLoading := false }, be, ops ++ [Op.blobPut storagePath encryptedBuffer],
     u2.2, false⟩
  else
    let be1 := putBlob be storagePath encryptedBuffer
    let m := encryptMetadata f.name f.ftype f.size key u2.2
    let row : FileRow :=
      ⟨fileId, u.id, storagePath, m.1.1, m.1.2, dataIv, thumbnailPath, thumbnailIv, env.now⟩
    if env.insertFails then
      ⟨{ st with isLoading := false }, be1,
       ops ++ [Op.blobPut storagePath encryptedBuffer, Op.catInsert row], m.2, false⟩
    else
      let be2 := insertRow be1 row
      let lf := loadFiles { st with isLoading := false } be2
      ⟨lf.1, be2,
       ops ++ [Op.blobPut storagePath encryptedBuffer, Op.catInsert row] ++ lf.2, m.2, true⟩

/-- Model of uploadFile (VaultContext.tsx lines 300-352): return immediately on a
locked session; otherwise encrypt the body, handle the optional thumbnail
(its blob-write rejection throws, aborting the whole upload), then write
the body blob and the catalog row in that order. -/
def uploadFile (env : Env) (st : VaultState) (be : Backend) (f : FileInput) (rng : Rng) :
    UploadResult :=
  match st.user, st.masterKey with
  | some u, some key =>
    let e1 := encryptData f.content key rng
    let st1 := { st with isLoading := true }
    match generateThumbnail env f with
    | some tb =>
      let e2 := encryptData tb key e1.2
      let u1 := randomUUID e2.2
      let tPath := thumbPathOf u.id u1.1
      if env.blobPutFails tPath then
        ⟨{ st with isLoading := false }, be, [Op.blobPut tPath e2.1.encryptedBuffer], u1.2, false⟩
      else
        uploadRest env st1 (putBlob be tPath e2.1.encryptedBuffer) f u key
          e1.1.encryptedBuffer e1.1.iv (some tPath) (some e2.1.iv)
          [Op.blobPut tPath e2.1.encryptedBuffer] u1.2
    | none =>
      uploadRest env st1 be f u key e1.1.encryptedBuffer e1.1.iv none none [] e1.2
  | _, _ => ⟨st, be, [], rng, true⟩

/-- Model of downloadFile (VaultContext.tsx lines 354-383): guarded on an unlocked
session and a listed file; fetches the row and the body blob, decrypts,
and hands the bytes to the browser (returned here); every failure is
caught (returns none). -/
def downloadFile (st : VaultState) (be : Backend) (fileId : Bytes) :
    VaultState × Backend × List Op × Option Bytes :=
  match st.user, st.masterKey with
  | some _, some key =>
    match st.files.find? (fun f => f.id == fileId) with
    | none => (st, be, [], none)
    | some _ =>
      match findRow be fileId with
      | none => (st, be, [Op.catSelectOne fileId], none)
      | some ef =>
        match getBlob be ef.storage_path with
        | none => (st, be, [Op.catSelectOne fileId, Op.blobGet ef.storage_path], none)
        | some bytes =>
          (st, be, [Op.catSelectOne fileId, Op.blobGet ef.storage_path],
           decryptData bytes ef.data_iv key)
  | _, _ => (st, be, [], none)

/-- Model of getThumbnail (VaultContext.tsx lines 385-402): guarded on an unlocked
session; fetches the row and the thumbnail blob when one exists, decrypts;
every failure is caught (returns none, modelling undefined). -/
def getThumbnail (st : VaultState) (be : Backend) (fileId : Bytes) :
    VaultState × Backend × List Op × Option Bytes :=
  match st.user, st.masterKey with
  | some _, some key =>
    match findRow be fileId with
    | none => (st, be, [Op.catSelectOne fileId], none)
    | some ef =>
      match ef.thumbnail_path with
      | none => (st, be, [Op.catSelectOne fileId], none)
      | some tp =>
        match getBlob be tp with
        | none => (st, be, [Op.catSelectOne fileId, Op.blobGet tp], none)
        | some bytes =>
          match ef.thumbnail_iv with
          | some tiv => (st, be, [Op.catSelectOne fileId, Op.blobGet tp],
                         decryptData bytes tiv key)
          | none => (st, be, [Op.catSelectOne fileId, Op.blobGet tp], none)
  | _, _ => (st, be, [], none)

/-- The blob paths deleteFile removes for a row (VaultContext.tsx lines
408-409): the body path, and the thumbnail path when present. -/
def delPaths (ef : FileRow) : List Bytes :=
  [ef.storage_path] ++ (match ef.thumbnail_path with
    | some tp => [tp]
    | none => [])

/-- Model of deleteFile (VaultContext.tsx lines 404-418): when the catalog row
exists, remove its blob paths from the blob backend first and only then
delete the catalog row; the session file list drops the id either way. -/
def deleteFile (st : VaultState) (be : Backend) (fileId : Bytes) :
    VaultState × Backend × List Op :=
  match findRow be fileId with
  | some ef =>
    let paths := delPaths ef
    let be1 := removeBlobs be paths
    let be2 := deleteRow be1 fileId
    ({ st with files := st.files.filter (fun f => !(f.id == fileId)) }, be2,
     [Op.catSelectOne fileId, Op.blobRemove paths, Op.catDelete fileId])
  | none =>
    ({ st with files := st.files.filter (fun f => !(f.id == fileId)) }, be,
     [Op.catSelectOne fileId])

/-! login (VaultContext.tsx lines 108-176).  The supabase authentication
call and the public.users fallback row are injected outcomes; the PBKDF2
derivation (deriveMasterKey, an external WebCrypto primitive wrapped at
part_003 lines 33-55) is a parameter, since the properties proved hold for
every derivation function.  Modelled from the spec: KeyDerivation
(section 4.1) is deterministic in (password, salt). -/

/-- The supabase auth user as login reads it: id and the user_metadata
fields username, salt, verifier. -/
structure AuthUser where
  id : Bytes
  username : Option Bytes
  salt : Option Bytes
  verifier : Option Bytes
deriving DecidableEq, Repr

/-- Outcome of supabase.auth.signInWithPassword. -/
inductive AuthOutcome where
  | ok (u : AuthUser)
  | errNotConfirmed
  | errOther
deriving DecidableEq, Repr

/-- Injected external outcomes for a login attempt. -/
structure LoginEnv where
  auth : AuthOutcome
  dbUser : Option (Bytes × Bytes)

/-- How a modelled login call ends: a returned boolean or a propagated
throw. -/
inductive LoginRes where
  | ret (b : Bool)
  | threw
deriving DecidableEq, Repr

/-- The salt and verifier login resolves (VaultContext.tsx lines 129-145):
user_metadata first, else both replaced from the public.users fallback
row. -/
def resolveSV (env : LoginEnv) (cu : AuthUser) : Option Bytes × Option Bytes :=
  if cu.salt.isNone || cu.verifier.isNone then
    match env.dbUser with
    | some (ds, dv) => (some ds, some dv)
    | none => (cu.salt, cu.verifier)
  else (cu.salt, cu.verifier)

/-- The local part of an email address (email.split at the at-sign, first
component). -/
def emailLocal (email : Bytes) : Bytes := email.takeWhile (fun c => !(c == 64))

/-- Model of login (VaultContext.tsx lines 108-176): sign in, resolve salt and
verifier, derive the key from the entered password, and verify it against
the stored verifier; only on success are the user and master key set. -/
def login (env : LoginEnv) (derive : Bytes → Bytes → Bytes) (st : VaultState)
    (email password : Bytes) : VaultState × LoginRes :=
  match env.auth with
  | AuthOutcome.errNotConfirmed => ({ st with isLoading := false }, LoginRes.ret false)
  | AuthOutcome.errOther => ({ st with isLoading := false }, LoginRes.threw)
  | AuthOutcome.ok cu =>
    match resolveSV env cu with
    | (some salt, some verifier) =>
      let key := derive password salt
      if verifyKey key verifier then
        ({ st with
            user := some ⟨cu.id, cu.username.getD (emailLocal email), salt, verifier⟩,
            masterKey := some key,
            isLoading := false },
         LoginRes.ret true)
      else
        ({ st with isLoading := false }, LoginRes.ret false)
    | _ => ({ st with isLoading := false }, LoginRes.threw)

/-! Helper lemmas: base64. -/

theorem b64Char_ge (v : Nat) : 43 ≤ b64Char v := by
  unfold b64Char
  split_ifs <;> omega

theorem b64Char_ne_61 (v : Nat) : b64Char v ≠ 61 := by
  unfold b64Char
  split_ifs <;> omega

theorem b64CharInv_b64Char {v : Nat} (h : v < 64) : b64CharInv (b64Char v) = some v := by
  unfold b64Char b64CharInv
  split_ifs <;> simp_all <;> omega

theorem b64_decode_encode : ∀ (l : Bytes), isBytes l → b64Decode (b64Encode l) = some l
  | [], _ => rfl
  | [a], h => by
    have ha : a < 256 := h a (by simp)
    have h1 : a / 4 < 64 := by omega
    have h2 : a % 4 * 16 < 64 := by omega
    simp only [b64Encode, b64Decode, List.cons.injEq, and_true, and_self, if_true,
      b64CharInv_b64Char h1, b64CharInv_b64Char h2]
    rw [if_pos (by omega : a % 4 * 16 % 16 = 0)]
    simp only [Option.some.injEq, List.cons.injEq, and_true]
    omega
  | [a, b], h => by
    have ha : a < 256 := h a (by simp)
    have hb : b < 256 := h b (by simp)
    have h1 : a / 4 < 64 := by omega
    have h2 : a % 4 * 16 + b / 16 < 64 := by omega
    have h3 : b % 16 * 4 < 64 := by omega
    have hne : b64Char (b % 16 * 4) ≠ 61 := b64Char_ne_61 _
    simp only [b64Encode, b64Decode]
    rw [if_neg (by simp [hne]), if_pos (by simp),
      b64CharInv_b64Char h1, b64CharInv_b64Char h2, b64CharInv_b64Char h3]
    simp only
    rw [if_pos (by omega : b % 16 * 4 % 4 = 0)]
    simp only [Option.some.injEq, List.cons.injEq, and_true]
    exact ⟨by omega, by omega⟩
  | a :: b :: c :: rest, h => by
    have ha : a < 256 := h a (by simp)
    have hb : b < 256 := h b (by simp)
    have hc : c < 256 := h c (by simp)
    have ih := b64_decode_encode rest (fun x hx => h x (by simp [hx]))
    have h1 : a / 4 < 64 := by omega
    have h2 : a % 4 * 16 + b / 16 < 64 := by omega
    have h3 : b % 16 * 4 + c / 64 < 64 := by omega
    have h4 : c % 64 < 64 := by omega
    have hne4 : b64Char (c % 64) ≠ 61 := b64Char_ne_61 _
    have hne3 : b64Char (b % 16 * 4 + c / 64) ≠ 61 := b64Char_ne_61 _
    simp only [b64Encode, b64Decode]
    rw [if_neg (by simp [hne3]), if_neg (by simp [hne4]),
      b64CharInv_b64Char h1, b64CharInv_b64Char h2, b64CharInv_b64Char h3,
      b64CharInv_b64Char h4, ih]
    simp only
    congr 1
    refine List.cons_eq_cons.mpr ⟨by omega, ?_⟩
    refine List.cons_eq_cons.mpr ⟨by omega, ?_⟩
    refine List.cons_eq_cons.mpr ⟨by omega, rfl⟩

theorem b64Encode_inj {l1 l2 : Bytes} (h1 : isBytes l1) (h2 : isBytes l2)
    (he : b64Encode l1 = b64Encode l2) : l1 = l2 := by
  have := b64_decode_encode l1 h1
  rw [he, b64_decode_encode l2 h2] at this
  exact (Option.some.injEq _ _ ▸ this).symm

theorem mem_b64Encode_ge : ∀ (l : Bytes) (c : Nat), c ∈ b64Encode l → 43 ≤ c
  | [], c, hc => by simp [b64Encode] at hc
  | [a], c, hc => by
    simp only [b64Encode, List.mem_cons, List.not_mem_nil, or_false] at hc
    rcases hc with h | h | h | h <;> subst h <;> first | exact b64Char_ge _ | omega
  | [a, b], c, hc => by
    simp only [b64Encode, List.mem_cons, List.not_mem_nil, or_false] at hc
    rcases hc with h | h | h | h <;> subst h <;> first | exact b64Char_ge _ | omega
  | a :: b :: d :: rest, c, hc => by
    simp only [b64Encode, List.mem_cons] at hc
    rcases hc with h | h | h | h | h
    · subst h; exact b64Char_ge _
    · subst h; exact b64Char_ge _
    · subst h; exact b64Char_ge _
    · subst h; exact b64Char_ge _
    · exact mem_b64Encode_ge rest c h

/-! Helper lemmas: randomness. -/

theorem drawBytes_length (n : Nat) (rng : Rng) : (drawBytes n rng).length = n := by
  simp [drawBytes]

theorem drawBytes_isBytes (n : Nat) (rng : Rng) : isBytes (drawBytes n rng) := by
  intro b hb
  simp only [drawBytes, List.mem_map] at hb
  obtain ⟨i, _, hi⟩ := hb
  omega

/-! Helper lemmas: the model AEAD cipher. -/

theorem streamEnc_length (key iv : Bytes) : ∀ (i : Nat) (p : Bytes),
    (streamEnc key iv i p).length = p.length
  | _, [] => rfl
  | i, b :: rest => by simp [streamEnc, streamEnc_length key iv (i + 1) rest]

theorem streamEnc_streamEnc (key iv : Bytes) : ∀ (i : Nat) (p : Bytes),
    streamEnc key iv i (streamEnc key iv i p) = p
  | _, [] => rfl
  | i, b :: rest => by
    have ih := streamEnc_streamEnc key iv (i + 1) rest
    simp [streamEnc, Nat.xor_assoc, ih]

theorem ksByte_lt (key iv : Bytes) (i : Nat) : ksByte key iv i < 256 :=
  Nat.mod_lt _ (by omega)

theorem xorByte_lt {a b : Nat} (ha : a < 256) (hb : b < 256) : a ^^^ b < 256 := by
  have h28 : (256 : Nat) = 2 ^ 8 := by norm_num
  rw [h28] at ha hb ⊢
  exact Nat.xor_lt_two_pow ha hb

theorem streamEnc_isBytes (key iv : Bytes) : ∀ (i : Nat) (p : Bytes), isBytes p →
    isBytes (streamEnc key iv i p)
  | _, [], _ => by intro b hb; simp [streamEnc] at hb
  | i, b :: rest, hp => by
    intro x hx
    simp only [streamEnc, List.mem_cons] at hx
    rcases hx with h | h
    · subst h
      exact xorByte_lt (hp b (by simp)) (ksByte_lt key iv i)
    · exact streamEnc_isBytes key iv (i + 1) rest (fun y hy => hp y (by simp [hy])) x h

theorem chkSum_lt (p : Bytes) : chkSum p < 256 := by
  unfold chkSum
  generalize hq : (0 : Nat) = q
  have hq' : q < 256 := by omega
  clear hq
  induction p generalizing q with
  | nil => simpa using hq'
  | cons b rest ih => exact ih _ (Nat.mod_lt _ (by omega))

theorem keyPad_length (key : Bytes) : (keyPad key).length = 12 := by simp [keyPad]

theorem keyPad_isBytes (key : Bytes) : isBytes (keyPad key) := by
  intro b hb
  simp only [keyPad, List.mem_map] at hb
  obtain ⟨i, _, hi⟩ := hb
  omega

theorem tagOf_length (key : Bytes) {iv : Bytes} (p : Bytes) (hiv : iv.length = 12) :
    (tagOf key iv p).length = 16 := by
  simp [tagOf, hiv, keyPad_length]

theorem zipxor_isBytes : ∀ (a k : Bytes), isBytes a → isBytes k →
    isBytes (List.zipWith (fun x y => x ^^^ y) a k)
  | [], _, _, _ => by intro b hb; simp at hb
  | _ :: _, [], _, _ => by intro b hb; simp at hb
  | a :: as, k :: ks, ha, hk => by
    intro b hb
    simp only [List.zipWith, List.mem_cons] at hb
    rcases hb with h | h
    · subst h
      exact xorByte_lt (ha a (by simp)) (hk k (by simp))
    · exact zipxor_isBytes as ks (fun x hx => ha x (by simp [hx]))
        (fun x hx => hk x (by simp [hx])) b h

theorem tagOf_isBytes (key : Bytes) {iv : Bytes} (p : Bytes) (hiv : isBytes iv) :
    isBytes (tagOf key iv p) := by
  intro b hb
  simp only [tagOf, List.mem_append, List.mem_cons, List.not_mem_nil, or_false] at hb
  rcases hb with h | h | h | h | h
  · exact zipxor_isBytes iv (keyPad key) hiv (keyPad_isBytes key) b h
  · subst h; exact Nat.mod_lt _ (by omega)
  · subst h; exact chkSum_lt p
  · subst h; exact chkSum_lt iv
  · subst h; exact chkSum_lt key

theorem aeadEncrypt_isBytes (key : Bytes) {iv p : Bytes} (hiv : isBytes iv)
    (hp : isBytes p) : isBytes (aeadEncrypt key iv p) := by
  intro b hb
  simp only [aeadEncrypt, List.mem_append] at hb
  rcases hb with h | h
  · exact streamEnc_isBytes key iv 0 p hp b h
  · exact tagOf_isBytes key p hiv b h

theorem aead_roundtrip (key : Bytes) {iv : Bytes} (p : Bytes) (hiv : iv.length = 12) :
    aeadDecrypt key iv (aeadEncrypt key iv p) = some p := by
  have hbody : (streamEnc key iv 0 p).length = p.length := streamEnc_length key iv 0 p
  have htag : (tagOf key iv p).length = 16 := tagOf_length key p hiv
  unfold aeadEncrypt aeadDecrypt
  have hlen : (streamEnc key iv 0 p ++ tagOf key iv p).length = p.length + 16 := by
    rw [List.length_append, hbody, htag]
  rw [if_neg (by omega)]
  have hsub : (streamEnc key iv 0 p ++ tagOf key iv p).length - 16
      = (streamEnc key iv 0 p).length := by omega
  rw [hsub, List.take_left, List.drop_left]
  simp [streamEnc_streamEnc key iv 0 p]

theorem zipxor_inj : ∀ (a b k : Bytes), a.length = b.length → a.length ≤ k.length →
    List.zipWith (fun x y => x ^^^ y) a k = List.zipWith (fun x y => x ^^^ y) b k → a = b
  | [], [], _, _, _, _ => rfl
  | [], b :: bs, _, h, _, _ => by simp at h
  | a :: as, [], _, h, _, _ => by simp at h
  | _ :: _, _ :: _, [], _, hk, _ => by simp at hk
  | a :: as, b :: bs, k :: ks, h, hk, he => by
    simp only [List.zipWith, List.cons.injEq] at he
    have h1 : a = b := by
      have := congrArg (fun z => z ^^^ k) he.1
      simpa [Nat.xor_assoc] using this
    have h2 : as = bs := zipxor_inj as bs ks (by simpa using h) (by simpa using hk) he.2
    rw [h1, h2]

theorem aeadEncrypt_iv_inj (key p : Bytes) {iv1 iv2 : Bytes} (h1 : iv1.length = 12)
    (h2 : iv2.length = 12) (hne : iv1 ≠ iv2) :
    aeadEncrypt key iv1 p ≠ aeadEncrypt key iv2 p := by
  intro he
  apply hne
  unfold aeadEncrypt at he
  have hlen : (streamEnc key iv1 0 p).length = (streamEnc key iv2 0 p).length := by
    rw [streamEnc_length, streamEnc_length]
  have htags : tagOf key iv1 p = tagOf key iv2 p := (List.append_inj he hlen).2
  unfold tagOf at htags
  have hzlen : (List.zipWith (fun x y => x ^^^ y) iv1 (keyPad key)).length
      = (List.zipWith (fun x y => x ^^^ y) iv2 (keyPad key)).length := by
    simp [h1, h2, keyPad_length]
  have hzip := (List.append_inj htags hzlen).1
  exact zipxor_inj iv1 iv2 (keyPad key) (by omega) (by rw [h1, keyPad_length]) hzip

/-! Helper lemmas: verifier serialization. -/

theorem dropLead_append : ∀ (p s : Bytes), dropLead p (p ++ s) = some s
  | [], s => rfl
  | c :: ps, s => by simp [dropLead, dropLead_append ps s]

theorem splitAtQuote_append : ∀ (xs : Bytes), (∀ c ∈ xs, c ≠ 34) → ∀ (rest : Bytes),
    splitAtQuote (xs ++ 34 :: rest) = some (xs, rest)
  | [], _, rest => by simp [splitAtQuote]
  | x :: xs, h, rest => by
    have hx : x ≠ 34 := h x (by simp)
    have ih := splitAtQuote_append xs (fun c hc => h c (by simp [hc])) rest
    simp [splitAtQuote, hx, ih]

theorem parseVerifier_stringify {ivB dataB : Bytes} (h1 : ∀ c ∈ ivB, c ≠ 34)
    (h2 : ∀ c ∈ dataB, c ≠ 34) :
    parseVerifier (stringifyVerifier ivB dataB) = some (ivB, dataB) := by
  have e1 := splitAtQuote_append ivB h1
  have e2 := splitAtQuote_append dataB h2
  simp [parseVerifier, stringifyVerifier, dropLead, e1, e2]

/-- Claim C1: for every plaintext byte buffer and every key, decrypting the result
of encryption with the same key and the returned IV recovers the plaintext
exactly, the IV travelling base64-encoded between the two calls. -/
theorem encryptData_decryptData_roundtrip (data key : Bytes) (rng : Rng) :
    decryptData (encryptData data key rng).1.encryptedBuffer
      (encryptData data key rng).1.iv key = some data := by
  show decryptData (aeadEncrypt key (drawBytes IV_LENGTH rng) data)
    (b64Encode (drawBytes IV_LENGTH rng)) key = some data
  unfold decryptData
  rw [b64_decode_encode _ (drawBytes_isBytes _ _)]
  exact aead_roundtrip key data (drawBytes_length _ _)

/-- Claim C3: verifying a verifier freshly generated under the same key succeeds:
generateVerifier encrypts the constant VALID_USER_KEY under the key with a
fresh IV and verifyKey decrypts it and compares against that constant. -/
theorem verifyKey_generateVerifier (key : Bytes) (rng : Rng) :
    verifyKey key (generateVerifier key rng).1 = true := by
  show verifyKey key (stringifyVerifier (b64Encode (drawBytes IV_LENGTH rng))
    (b64Encode (aeadEncrypt key (drawBytes IV_LENGTH rng) VALID_USER_KEY))) = true
  have hiv := drawBytes_isBytes IV_LENGTH rng
  have hct : isBytes (aeadEncrypt key (drawBytes IV_LENGTH rng) VALID_USER_KEY) :=
    aeadEncrypt_isBytes key hiv (by decide)
  have hq1 : ∀ c ∈ b64Encode (drawBytes IV_LENGTH rng), c ≠ 34 := fun c hc => by
    have := mem_b64Encode_ge _ c hc; omega
  have hq2 : ∀ c ∈ b64Encode (aeadEncrypt key (drawBytes IV_LENGTH rng) VALID_USER_KEY),
      c ≠ 34 := fun c hc => by
    have := mem_b64Encode_ge _ c hc; omega
  unfold verifyKey
  rw [parseVerifier_stringify hq1 hq2]
  simp only [b64_decode_encode _ hiv, b64_decode_encode _ hct]
  rw [aead_roundtrip key VALID_USER_KEY (drawBytes_length IV_LENGTH rng)]
  simp

/-- Claim C4: verifyKey is total into Bool (every exception of the underlying
stages is caught) and returns true exactly when the verifier parses, both
fields base64-decode, decryption authenticates, and the recovered plaintext
is the constant VALID_USER_KEY; every failure cause yields the same false,
so the causes are indistinguishable in the returned value. -/
theorem verifyKey_true_iff (key s : Bytes) :
    verifyKey key s = true ↔
      ∃ ivB dataB iv data,
        parseVerifier s = some (ivB, dataB) ∧ b64Decode ivB = some iv ∧
        b64Decode dataB = some data ∧ aeadDecrypt key iv data = some VALID_USER_KEY := by
  cases hp : parseVerifier s with
  | none => simp [verifyKey, hp]
  | some pr =>
    obtain ⟨ivB, dataB⟩ := pr
    cases hiv : b64Decode ivB with
    | none => simp [verifyKey, hp, hiv]
    | some iv =>
      cases hdat : b64Decode dataB with
      | none => simp [verifyKey, hp, hiv, hdat]
      | some data =>
        cases hdec : aeadDecrypt key iv data with
        | none => simp [verifyKey, hp, hiv, hdat, hdec]
        | some pt =>
          constructor
          · intro h
            have hpt : pt = VALID_USER_KEY := by
              simpa [verifyKey, hp, hiv, hdat, hdec] using h
            exact ⟨ivB, dataB, iv, data, rfl, hiv, hdat, by rw [hdec, hpt]⟩
          · rintro ⟨ivB', dataB', iv', data', hp', hiv', hdat', hdec'⟩
            have hpp : (ivB, dataB) = (ivB', dataB') := Option.some.inj hp'
            have hb1 : ivB = ivB' := congrArg Prod.fst hpp
            have hb2 : dataB = dataB' := congrArg Prod.snd hpp
            subst hb1
            subst hb2
            rw [hiv] at hiv'
            have hi : iv = iv' := Option.some.inj hiv'
            subst hi
            rw [hdat] at hdat'
            have hd : data = data' := Option.some.inj hdat'
            subst hd
            rw [hdec] at hdec'
            have hpt : pt = VALID_USER_KEY := Option.some.inj hdec'
            simp [verifyKey, hp, hiv, hdat, hdec, hpt]

/-- Claim C5: encryptData draws a fresh IV_LENGTH-byte IV from the CSPRNG and
returns exactly that IV base64-encoded alongside the ciphertext, and two
encryption calls whose random draws differ return different IVs and
different ciphertexts, in particular for identical plaintext and key. -/
theorem encryptData_fresh_iv (data key : Bytes) (r1 r2 : Rng) :
    ((encryptData data key r1).1.iv = b64Encode (drawBytes IV_LENGTH r1)
      ∧ (drawBytes IV_LENGTH r1).length = IV_LENGTH)
    ∧ (drawBytes IV_LENGTH r1 ≠ drawBytes IV_LENGTH r2 →
        (encryptData data key r1).1.iv ≠ (encryptData data key r2).1.iv
        ∧ (encryptData data key r1).1.encryptedBuffer
            ≠ (encryptData data key r2).1.encryptedBuffer) := by
  refine ⟨⟨rfl, drawBytes_length _ _⟩, fun hne => ⟨?_, ?_⟩⟩
  · intro h
    exact hne (b64Encode_inj (drawBytes_isBytes _ _) (drawBytes_isBytes _ _) h)
  · show aeadEncrypt key (drawBytes IV_LENGTH r1) data
      ≠ aeadEncrypt key (drawBytes IV_LENGTH r2) data
    exact aeadEncrypt_iv_inj key data (drawBytes_length _ _) (drawBytes_length _ _) hne

/-- Witness for C5 at a concrete pair of random streams whose draws
differ. -/
theorem encryptData_fresh_iv_witness :
    drawBytes IV_LENGTH (fun _ => 0) ≠ drawBytes IV_LENGTH (fun _ => 1)
    ∧ ((encryptData [7] [3] (fun _ => 0)).1.iv ≠ (encryptData [7] [3] (fun _ => 1)).1.iv
       ∧ (encryptData [7] [3] (fun _ => 0)).1.encryptedBuffer
           ≠ (encryptData [7] [3] (fun _ => 1)).1.encryptedBuffer) :=
  ⟨by decide, (encryptData_fresh_iv [7] [3] (fun _ => 0) (fun _ => 1)).2 (by decide)⟩

/-! Helper lemmas: find? over filtered lists. -/

theorem find?_filter_none {α : Type} (l : List α) (p q : α → Bool)
    (h : ∀ a, p a = true → q a = true) :
    (l.filter (fun a => !(q a))).find? p = none := by
  induction l with
  | nil => rfl
  | cons a l ih =>
    cases hq : q a with
    | true => simp [List.filter_cons, hq, ih]
    | false =>
      have hp : p a = false := by
        cases hpa : p a with
        | false => rfl
        | true => rw [h a hpa] at hq; exact absurd hq (by simp)
      simp [List.filter_cons, hq, List.find?_cons, hp, ih]

theorem findRow_deleteRow (be : Backend) (fid : Bytes) :
    findRow (deleteRow be fid) fid = none := by
  unfold findRow deleteRow
  exact find?_filter_none _ _ _ (fun r hr => hr)

theorem getBlob_removeBlobs (be : Backend) (paths : List Bytes) (path : Bytes)
    (h : path ∈ paths) : getBlob (removeBlobs be paths) path = none := by
  unfold getBlob removeBlobs
  rw [find?_filter_none _ _ _ (fun pb hpb => ?_)]
  · rfl
  · have : pb.1 = path := by simpa using hpb
    simpa [this] using h

/-- Claim C6: deleteFile, when the catalog record exists, removes the body blob
and the thumbnail blob (when present) from the blob backend first and only
then deletes the catalog row (the trace is exactly select, blob removal,
catalog delete, in that order), and after a completed delete neither the
blobs nor the catalog row remain. -/
theorem deleteFile_blobs_then_catalog (st : VaultState) (be : Backend) (fid : Bytes)
    (ef : FileRow) (hef : findRow be fid = some ef) :
    (deleteFile st be fid).2.2
        = [Op.catSelectOne fid, Op.blobRemove (delPaths ef), Op.catDelete fid]
    ∧ findRow (deleteFile st be fid).2.1 fid = none
    ∧ getBlob (deleteFile st be fid).2.1 ef.storage_path = none
    ∧ (∀ tp, ef.thumbnail_path = some tp → getBlob (deleteFile st be fid).2.1 tp = none) := by
  unfold deleteFile
  rw [hef]
  refine ⟨rfl, ?_, ?_, ?_⟩
  · exact findRow_deleteRow _ fid
  · show getBlob (deleteRow (removeBlobs be (delPaths ef)) fid) ef.storage_path = none
    have hblobs : (deleteRow (removeBlobs be (delPaths ef)) fid).blobs
        = (removeBlobs be (delPaths ef)).blobs := rfl
    show Option.map _ ((deleteRow (removeBlobs be (delPaths ef)) fid).blobs.find? _) = none
    rw [hblobs]
    exact getBlob_removeBlobs be (delPaths ef) ef.storage_path (by simp [delPaths])
  · intro tp htp
    show Option.map _ ((deleteRow (removeBlobs be (delPaths ef)) fid).blobs.find? _) = none
    have hblobs : (deleteRow (removeBlobs be (delPaths ef)) fid).blobs
        = (removeBlobs be (delPaths ef)).blobs := rfl
    rw [hblobs]
    exact getBlob_removeBlobs be (delPaths ef) tp (by simp [delPaths, htp])

/-- Witness for C6 at a concrete backend holding one catalog row with a
thumbnail and both blobs. -/
theorem deleteFile_blobs_then_catalog_witness :
    findRow ⟨[([5], [9]), ([6], [8])], [⟨[1], [2], [5], [3], [4], [4], some [6], some [4], 0⟩]⟩ [1]
        = some ⟨[1], [2], [5], [3], [4], [4], some [6], some [4], 0⟩
    ∧ ((deleteFile ⟨none, none, [], false⟩
          ⟨[([5], [9]), ([6], [8])], [⟨[1], [2], [5], [3], [4], [4], some [6], some [4], 0⟩]⟩
          [1]).2.2
        = [Op.catSelectOne [1],
           Op.blobRemove (delPaths ⟨[1], [2], [5], [3], [4], [4], some [6], some [4], 0⟩),
           Op.catDelete [1]]) := by
  refine ⟨by decide, ?_⟩
  exact (deleteFile_blobs_then_catalog ⟨none, none, [], false⟩
    ⟨[([5], [9]), ([6], [8])], [⟨[1], [2], [5], [3], [4], [4], some [6], some [4], 0⟩]⟩
    [1] ⟨[1], [2], [5], [3], [4], [4], some [6], some [4], 0⟩ (by decide)).1

/-- Claim C9: the loadFiles decryption loop isolates per-record failure: it equals
the filterMap of per-record decryption — the result is exactly the
successfully decrypted records in catalog order — and a record whose
metadata fails to decrypt is skipped without affecting the rest. -/
theorem loadFiles_skips_undecryptable (key : Bytes) :
    (∀ rows : List FileRow, loadLoop key rows
        = rows.filterMap (fun ef =>
            (decryptMetadata ef.encrypted_metadata ef.metadata_iv key).map
              (fun m => ⟨ef.id, m.name, m.ftype, m.size, ef.created_at⟩)))
    ∧ (∀ (pre post : List FileRow) (bad : FileRow),
        decryptMetadata bad.encrypted_metadata bad.metadata_iv key = none →
        loadLoop key (pre ++ bad :: post) = loadLoop key (pre ++ post)) := by
  have hmain : ∀ rows : List FileRow, loadLoop key rows
      = rows.filterMap (fun ef =>
          (decryptMetadata ef.encrypted_metadata ef.metadata_iv key).map
            (fun m => ⟨ef.id, m.name, m.ftype, m.size, ef.created_at⟩)) := by
    intro rows
    induction rows with
    | nil => rfl
    | cons ef rest ih =>
      cases hd : decryptMetadata ef.encrypted_metadata ef.metadata_iv key with
      | none => simp [loadLoop, hd, ih]
      | some m => simp [loadLoop, hd, ih]
  refine ⟨hmain, fun pre post bad hbad => ?_⟩
  rw [hmain, hmain]
  simp [List.filterMap_append, hbad]

/-- Witness for C9 at a concrete undecryptable record: an empty metadata
ciphertext fails decryption and the record is skipped. -/
theorem loadFiles_skips_undecryptable_witness :
    decryptMetadata ([] : Bytes) ([] : Bytes) ([] : Bytes) = none
    ∧ loadLoop [] ([] ++ ⟨[1], [2], [3], [], [], [], none, none, 0⟩ :: [])
        = loadLoop [] ([] ++ []) :=
  ⟨by decide, (loadFiles_skips_undecryptable []).2 [] []
    ⟨[1], [2], [3], [], [], [], none, none, 0⟩ (by decide)⟩

/-- Claim C10: with a locked vault (no user or no master key), uploadFile,
downloadFile and getThumbnail return immediately: the session state, both
backends and the random stream are unchanged, no backend operation is
attempted, and no cryptographic work consumes randomness. -/
theorem locked_session_no_effects (env : Env) (st : VaultState) (be : Backend)
    (f : FileInput) (fid fid2 : Bytes) (rng : Rng)
    (h : st.user = none ∨ st.masterKey = none) :
    uploadFile env st be f rng = ⟨st, be, [], rng, true⟩
    ∧ downloadFile st be fid = (st, be, [], none)
    ∧ getThumbnail st be fid2 = (st, be, [], none) := by
  cases hu : st.user with
  | none => exact ⟨by simp [uploadFile, hu], by simp [downloadFile, hu], by simp [getThumbnail, hu]⟩
  | some u =>
    cases hk : st.masterKey with
    | none =>
      exact ⟨by simp [uploadFile, hu, hk], by simp [downloadFile, hu, hk],
        by simp [getThumbnail, hu, hk]⟩
    | some k => simp [hu, hk] at h

/-- Witness for C10 at a concrete locked session. -/
theorem locked_session_no_effects_witness :
    uploadFile ⟨fun _ => false, false, none, 0⟩ ⟨none, none, [], false⟩ ⟨[], []⟩
        ⟨[1], [2], 1, [3]⟩ (fun _ => 0)
      = ⟨⟨none, none, [], false⟩, ⟨[], []⟩, [], fun _ => 0, true⟩
    ∧ downloadFile ⟨none, none, [], false⟩ ⟨[], []⟩ [1] = (⟨none, none, [], false⟩, ⟨[], []⟩, [], none)
    ∧ getThumbnail ⟨none, none, [], false⟩ ⟨[], []⟩ [1] = (⟨none, none, [], false⟩, ⟨[], []⟩, [], none) :=
  locked_session_no_effects ⟨fun _ => false, false, none, 0⟩ ⟨none, none, [], false⟩ ⟨[], []⟩
    ⟨[1], [2], 1, [3]⟩ [1] [1] (fun _ => 0) (Or.inl rfl)

theorem uploadRest_bodyFail {env : Env} {st : VaultState} {be : Backend} {f : FileInput}
    {u : UserRec} {key eb div : Bytes} {tp tiv : Option Bytes} {ops : List Op} {rng : Rng}
    (hfail : env.blobPutFails (encPathOf u.id (randomUUID rng).1) = true) :
    uploadRest env st be f u key eb div tp tiv ops rng
      = ⟨{ st with isLoading := false }, be,
         ops ++ [Op.blobPut (encPathOf u.id (randomUUID rng).1) eb], (randomUUID rng).2,
         false⟩ := by
  simp [uploadRest, hfail]

/-- Claim C2: when the storage backend rejects the body-ciphertext blob write,
uploadFile aborts before any catalog insert: the files table is unchanged,
no catalog-insert operation is ever attempted, and the call propagates the
failure — so no catalog row ever references a blob that was never
written. -/
theorem uploadFile_bodyWriteFails_catalogUnchanged
    (env : Env) (st : VaultState) (be : Backend) (f : FileInput) (rng : Rng)
    (u : UserRec) (key : Bytes) (hu : st.user = some u) (hk : st.masterKey = some key)
    (hfail : ∀ uuid, env.blobPutFails (encPathOf u.id uuid) = true) :
    (uploadFile env st be f rng).backend.filesTable = be.filesTable
    ∧ (∀ row, Op.catInsert row ∉ (uploadFile env st be f rng).trace)
    ∧ (uploadFile env st be f rng).ok = false := by
  simp only [uploadFile, hu, hk]
  split
  · split
    · exact ⟨rfl, fun row => by simp, rfl⟩
    · rw [uploadRest_bodyFail (hfail _)]
      exact ⟨rfl, fun row => by simp, rfl⟩
  · rw [uploadRest_bodyFail (hfail _)]
    exact ⟨rfl, fun row => by simp, rfl⟩

/-- Witness for C2 at a concrete unlocked session and an environment whose
blob store rejects every write. -/
theorem uploadFile_bodyWriteFails_catalogUnchanged_witness :
    (uploadFile ⟨fun _ => true, false, none, 0⟩
        ⟨some ⟨[2], [3], [4], [5]⟩, some [9], [], false⟩
        ⟨[], [⟨[1], [2], [5], [3], [4], [4], none, none, 0⟩]⟩
        ⟨[1], [2], 1, [3]⟩ (fun _ => 0)).backend.filesTable
      = [⟨[1], [2], [5], [3], [4], [4], none, none, 0⟩]
    ∧ (∀ row, Op.catInsert row ∉ (uploadFile ⟨fun _ => true, false, none, 0⟩
        ⟨some ⟨[2], [3], [4], [5]⟩, some [9], [], false⟩
        ⟨[], [⟨[1], [2], [5], [3], [4], [4], none, none, 0⟩]⟩
        ⟨[1], [2], 1, [3]⟩ (fun _ => 0)).trace)
    ∧ (uploadFile ⟨fun _ => true, false, none, 0⟩
        ⟨some ⟨[2], [3], [4], [5]⟩, some [9], [], false⟩
        ⟨[], [⟨[1], [2], [5], [3], [4], [4], none, none, 0⟩]⟩
        ⟨[1], [2], 1, [3]⟩ (fun _ => 0)).ok = false :=
  uploadFile_bodyWriteFails_catalogUnchanged ⟨fun _ => true, false, none, 0⟩
    ⟨some ⟨[2], [3], [4], [5]⟩, some [9], [], false⟩
    ⟨[], [⟨[1], [2], [5], [3], [4], [4], none, none, 0⟩]⟩
    ⟨[1], [2], 1, [3]⟩ (fun _ => 0) ⟨[2], [3], [4], [5]⟩ [9] rfl rfl (fun _ => rfl)

/-- Counterexample for C7: an upload of an image file in an environment where
only the thumbnail blob write is rejected does NOT complete — the code
throws at the thumbnail write, before the body blob write and the catalog
insert — contradicting the claim that a thumbnail blob-write failure is
non-fatal and leaves only the thumbnail fields null. -/
theorem uploadFile_thumbWriteFail_aborts :
    (uploadFile ⟨isThumbPath, false, some [7], 0⟩
        ⟨some ⟨[2], [3], [4], [5]⟩, some [9], [], false⟩ ⟨[], []⟩
        ⟨[1], [105, 109, 97, 103, 101, 47, 106], 1, [3]⟩ (fun _ => 0)).ok = false
    ∧ (uploadFile ⟨isThumbPath, false, some [7], 0⟩
        ⟨some ⟨[2], [3], [4], [5]⟩, some [9], [], false⟩ ⟨[], []⟩
        ⟨[1], [105, 109, 97, 103, 101, 47, 106], 1, [3]⟩ (fun _ => 0)).backend.filesTable = []
    ∧ (uploadFile ⟨isThumbPath, false, some [7], 0⟩
        ⟨some ⟨[2], [3], [4], [5]⟩, some [9], [], false⟩ ⟨[], []⟩
        ⟨[1], [105, 109, 97, 103, 101, 47, 106], 1, [3]⟩ (fun _ => 0)).backend.blobs = [] := by
  refine ⟨?_, ?_, ?_⟩ <;> decide

/-- Claim C7 as amended: failure of thumbnail generation (a non-image file, or the
raster collaborator yielding no blob) is non-fatal — the body upload and
the catalog record still complete, with the thumbnail fields null; a
thumbnail blob-write rejection, by contrast, aborts the whole upload. -/
theorem uploadFile_thumbGenFail_nonfatal
    (env : Env) (st : VaultState) (be : Backend) (f : FileInput) (rng : Rng)
    (u : UserRec) (key : Bytes) (hu : st.user = some u) (hk : st.masterKey = some key)
    (hg : generateThumbnail env f = none)
    (hput : ∀ p, env.blobPutFails p = false) (hins : env.insertFails = false) :
    (uploadFile env st be f rng).ok = true
    ∧ ∃ row : FileRow, (uploadFile env st be f rng).backend.filesTable
          = be.filesTable ++ [row]
        ∧ row.thumbnail_path = none ∧ row.thumbnail_iv = none := by
  simp only [uploadFile, hu, hk, hg, uploadRest, hput, hins, Bool.false_eq_true,
    if_false]
  exact ⟨trivial, ⟨_, rfl, rfl, rfl⟩⟩

/-- Witness for C7's amended claim at a concrete non-image upload in a
healthy environment. -/
theorem uploadFile_thumbGenFail_nonfatal_witness :
    (uploadFile ⟨fun _ => false, false, none, 5⟩
        ⟨some ⟨[2], [3], [4], [5]⟩, some [9], [], false⟩ ⟨[], []⟩
        ⟨[1], [2], 1, [3]⟩ (fun _ => 0)).ok = true
    ∧ ∃ row : FileRow, (uploadFile ⟨fun _ => false, false, none, 5⟩
          ⟨some ⟨[2], [3], [4], [5]⟩, some [9], [], false⟩ ⟨[], []⟩
          ⟨[1], [2], 1, [3]⟩ (fun _ => 0)).backend.filesTable = [] ++ [row]
        ∧ row.thumbnail_path = none ∧ row.thumbnail_iv = none :=
  uploadFile_thumbGenFail_nonfatal ⟨fun _ => false, false, none, 5⟩
    ⟨some ⟨[2], [3], [4], [5]⟩, some [9], [], false⟩ ⟨[], []⟩
    ⟨[1], [2], 1, [3]⟩ (fun _ => 0) ⟨[2], [3], [4], [5]⟩ [9] rfl rfl rfl
    (fun _ => rfl) rfl

/-- Claim C8: when the key derived from the entered password fails verification
against the stored verifier, login returns false and the session retains
no master key: the masterKey and user fields are exactly what they were
before the call. -/
theorem login_wrongPassword_no_masterKey (env : LoginEnv) (derive : Bytes → Bytes → Bytes)
    (st : VaultState) (email password : Bytes) (cu : AuthUser) (salt verifier : Bytes)
    (ha : env.auth = AuthOutcome.ok cu) (hsv : resolveSV env cu = (some salt, some verifier))
    (hv : verifyKey (derive password salt) verifier = false) :
    (login env derive st email password).1.masterKey = st.masterKey
    ∧ (login env derive st email password).1.user = st.user
    ∧ (login env derive st email password).2 = LoginRes.ret false := by
  simp only [login, ha, hsv, hv, Bool.false_eq_true, if_false]
  simp

/-- Witness for C8 at a concrete auth user whose stored verifier rejects
the derived key (an empty verifier string never verifies). -/
theorem login_wrongPassword_no_masterKey_witness :
    (login ⟨AuthOutcome.ok ⟨[1], none, some [2], some []⟩, none⟩ (fun _ _ => [])
        ⟨none, none, [], true⟩ [5] [6]).1.masterKey = none
    ∧ (login ⟨AuthOutcome.ok ⟨[1], none, some [2], some []⟩, none⟩ (fun _ _ => [])
        ⟨none, none, [], true⟩ [5] [6]).1.user = none
    ∧ (login ⟨AuthOutcome.ok ⟨[1], none, some [2], some []⟩, none⟩ (fun _ _ => [])
        ⟨none, none, [], true⟩ [5] [6]).2 = LoginRes.ret false :=
  login_wrongPassword_no_masterKey ⟨AuthOutcome.ok ⟨[1], none, some [2], some []⟩, none⟩
    (fun _ _ => []) ⟨none, none, [], true⟩ [5] [6] ⟨[1], none, some [2], some []⟩
    [2] [] rfl rfl (by decide)

end SecureVault
